import Mathlib

unseal Rat.add Rat.mul Rat.sub Rat.inv

/-!
Verification of the gesture-recognition core of the 3DIronMan repository.

The embedding below translates, over exact rationals, the two modules the
claims are about:

* `GestureEngine` (the gesture state machine): pose classification
  (`getFingerStates` / `detectGesture`), the two-hand pinch-zoom branch
  (`handleTwoHandGestures`), the single-hand branch
  (`handleSingleHandGestures`), `resetState`, and the per-frame dispatch
  (`processFrame`) modelled as the step relation `ProcessFrame`.

* `HandTracker` (the landmark smoother): `smoothLandmarks` and
  `handleResults`.

Conventions of the embedding:

* JavaScript numbers are modelled as `ℚ`.  The source compares
  `Math.hypot dx dy` against constant thresholds in two places (the
  ghost-proximity check and the stillness check); since both sides are
  nonnegative, `Math.hypot dx dy < c` is embedded as the exactly
  equivalent `dx^2 + dy^2 < c^2`.  The one place where the *value* of a
  Euclidean distance is used (the pinch baseline) is handled by the step
  relation `ProcessFrame`, whose two-hand constructor carries the
  distance `d` together with `0 ≤ d` and `d^2 = ` squared centroid
  distance.

* JavaScript truthiness tests on timestamp fields
  (`if (!this.palmStartTime)`, `this.lastMoveTime && ...`, ...) are
  embedded by `optTruthy`: `none` and `some 0` are falsy.

* `Date.now()` is the `t` field of each input frame.
-/

namespace IronMan

/-- One tracked landmark; the engine reads `x`/`y`, the smoother also `z`. -/
@[ext] structure Pt where
  x : ℚ
  y : ℚ
  z : ℚ
deriving DecidableEq, Repr

/-- A hand is the per-frame ordered landmark list (21 entries upstream). -/
abbrev Hand := List Pt

def ptZero : Pt := ⟨0, 0, 0⟩

/-- JavaScript truthiness of a nullable numeric field: `null`/absent and
`0` are falsy. -/
def optTruthy : Option ℚ → Bool
  | none => false
  | some x => x ≠ 0

namespace GestureEngine

/-- Pose labels returned by `detectGesture`. -/
inductive Gesture where
  | palm | victory | fist | point | unknown
deriving DecidableEq, Repr

/-- `getFingerStates(landmarks)`: extension test for the five digits,
tip `y` below pip `y` plus a `0.02` tolerance, in source order
`[thumb, index, middle, ring, pinky]` (tips `4,8,12,16,20`,
pips `3,6,10,14,18`). -/
def getFingerStates (landmarks : Hand) : List Bool :=
  let fingerTips := [4, 8, 12, 16, 20]
  let fingerPips := [3, 6, 10, 14, 18]
  (fingerTips.zip fingerPips).map fun tp =>
    decide ((landmarks.getD tp.1 ptZero).y < (landmarks.getD tp.2 ptZero).y + 2/100)

/-- The classification cascade of `detectGesture`, as a function of the
five finger-extension booleans. -/
def classifyStates (fingerStates : List Bool) : Gesture :=
  let extendedCount := fingerStates.countP id
  if 4 ≤ extendedCount then .palm
  else if fingerStates.getD 1 false ∧ fingerStates.getD 2 false ∧
      ¬ fingerStates.getD 3 false ∧ ¬ fingerStates.getD 4 false then .victory
  else if extendedCount = 0 ∨ (extendedCount = 1 ∧ fingerStates.getD 0 false) then .fist
  else if fingerStates.getD 1 false then .point
  else if extendedCount = 1 then .point
  else .unknown

/-- `detectGesture(landmarks)`: finger states, then the cascade. -/
def detectGesture (landmarks : Hand) : Gesture :=
  classifyStates (getFingerStates landmarks)

/-- Classifier described by claim C3 (modelled from the claim's words, for
comparison with the source's `classifyStates`): Palm iff `E ≥ 4`; else
Victory; else Fist; else Point iff the index is extended; otherwise
Unknown. -/
def classifyStatesC3Spec (fingerStates : List Bool) : Gesture :=
  let extendedCount := fingerStates.countP id
  if 4 ≤ extendedCount then .palm
  else if fingerStates.getD 1 false ∧ fingerStates.getD 2 false ∧
      ¬ fingerStates.getD 3 false ∧ ¬ fingerStates.getD 4 false then .victory
  else if extendedCount = 0 ∨ (extendedCount = 1 ∧ fingerStates.getD 0 false) then .fist
  else if fingerStates.getD 1 false then .point
  else .unknown

/-- Interaction states of the engine.  The constructor and `resetState`
assign `idle`; the branches assign `pinching`, `switching`, `tracking`
and `rotating`; `locked` is only ever *read* (in `resetState`). -/
inductive St where
  | idle | tracking | rotating | switching | pinching | locked
deriving DecidableEq, Repr

/-- Events emitted through the callback registry.  `lock` appears in the
constructor's event list but is never emitted by any code path. -/
inductive Event where
  | zoom (scaleFactor : ℚ)
  | swipe (direction : String)
  | rotate (deltaX deltaY : ℚ)
  | reset
  | lock
  | unlock
deriving DecidableEq, Repr

/-- The `lastHandPosition` record: current tip position plus the latched
session-start anchor. -/
@[ext] structure LastPos where
  x : ℚ
  y : ℚ
  startX : ℚ
  startY : ℚ
deriving DecidableEq, Repr

/-- Mutable fields of `GestureEngine` that the gesture logic reads or
writes.  `swipeCooldownTimestamp` is read by the guard at the top of
`handleSingleHandGestures` but never assigned anywhere in the program;
`palmStartTime`, `switchCooldown` and `lastMoveTime` start out absent
(undefined) and are created on first assignment. -/
@[ext] structure Eng where
  state : St
  gestureStartTime : Option ℚ
  lastHandPosition : Option LastPos
  pinchStartDistance : Option ℚ
  palmStartTime : Option ℚ
  switchCooldown : Option ℚ
  lastMoveTime : Option ℚ
  swipeCooldownTimestamp : Option ℚ
deriving DecidableEq, Repr

/-- Engine state right after the constructor. -/
def initEngine : Eng :=
  { state := .idle, gestureStartTime := none, lastHandPosition := none,
    pinchStartDistance := none, palmStartTime := none, switchCooldown := none,
    lastMoveTime := none, swipeCooldownTimestamp := none }

/-- `resetState()`: emit `unlock` when leaving `locked`, then clear state,
anchor, pinch baseline and gesture-start time (the other timers are left
untouched). -/
def resetState (s : Eng) : Eng × List Event :=
  ({ s with state := .idle, lastHandPosition := none,
            pinchStartDistance := none, gestureStartTime := none },
   if s.state = .locked then [.unlock] else [])

/-- `getHandCenter(landmarks)`: the centroid (x and y component). -/
def getHandCenter (landmarks : Hand) : ℚ × ℚ :=
  ((landmarks.map Pt.x).sum / landmarks.length,
   (landmarks.map Pt.y).sum / landmarks.length)

/-- `handleTwoHandGestures(hands)`, factored at the point where the source
has already computed the inter-centroid distance: first qualifying frame
records the baseline and enters `pinching`; later frames emit a clamped,
amplified ratio zoom and always update the baseline. -/
def handleTwoHandGestures (s : Eng) (distance : ℚ) : Eng × List Event :=
  match s.pinchStartDistance with
  | none => ({ s with pinchStartDistance := some distance, state := .pinching }, [])
  | some prevDistance =>
      if 0 < prevDistance then
        let rawFactor := max (85/100) (min (115/100) (distance / prevDistance))
        let scaleFactor := 1 + (rawFactor - 1) * (3/2)
        ({ s with pinchStartDistance := some distance },
         if 1/2000 < |scaleFactor - 1| then [.zoom scaleFactor] else [])
      else
        ({ s with pinchStartDistance := some distance }, [])

/-- Horizontal-pointing test of the swipe branch: the knuckle-to-tip
vector is more horizontal than vertical (relaxed 0.8 ratio) and long
enough. -/
def swipeGeom (landmarks : Hand) : Prop :=
  let dx := (landmarks.getD 8 ptZero).x - (landmarks.getD 5 ptZero).x
  let dy := (landmarks.getD 8 ptZero).y - (landmarks.getD 5 ptZero).y
  |dy| * (8/10) < |dx| ∧ 4/100 < |dx|

instance (landmarks : Hand) : Decidable (swipeGeom landmarks) := by
  unfold swipeGeom; infer_instance

/-- The fist/point rotation section of `handleSingleHandGestures`
(lines after the swipe branch): anchor latch, the 50 ms settle gate,
per-frame rotate deltas scaled by 2.5, and the stillness auto-reset.
`Math.hypot(...) > 0.002` is embedded as the equivalent squared
comparison. -/
def rotationBranch (s : Eng) (now : ℚ) (indexTip : Pt) : Eng × List Event :=
  match s.lastHandPosition with
  | none =>
      ({ s with lastHandPosition := some ⟨indexTip.x, indexTip.y, indexTip.x, indexTip.y⟩,
                gestureStartTime := some now, state := .tracking }, [])
  | some p =>
      let elapsed := now - s.gestureStartTime.getD 0
      let s2 := if 50 < elapsed then { s with state := .rotating } else s
      let rotEv : List Event :=
        if 50 < elapsed then
          [.rotate ((indexTip.x - p.x) * (5/2)) ((indexTip.y - p.y) * (5/2))]
        else []
      let instSq := (indexTip.x - p.x)^2 + (indexTip.y - p.y)^2
      if (1/500)^2 < instSq then
        ({ s2 with lastMoveTime := some now,
                   lastHandPosition := some { p with x := indexTip.x, y := indexTip.y } },
         rotEv)
      else if optTruthy s2.lastMoveTime ∧ 300 < now - s2.lastMoveTime.getD 0 then
        let r := resetState s2
        ({ r.1 with lastMoveTime := none }, rotEv ++ r.2)
      else
        ({ s2 with lastHandPosition := some { p with x := indexTip.x, y := indexTip.y } },
         rotEv)

/-- `handleSingleHandGestures(landmarks, handedness)` (the `handedness`
parameter is unused in the source body).  Top guard on the never-assigned
`swipeCooldownTimestamp`, then the palm-hold branch, the horizontal-point
swipe branch with its 1200 ms cooldown, the fist/point rotation branch,
and the fall-through reset. -/
def handleSingleHandGestures (s : Eng) (now : ℚ) (landmarks : Hand) : Eng × List Event :=
  if optTruthy s.swipeCooldownTimestamp ∧ now < s.swipeCooldownTimestamp.getD 0 then
    (s, [])
  else
    let gesture := detectGesture landmarks
    let indexTip := landmarks.getD 8 ptZero
    if gesture = .palm then
      let palmStart := if optTruthy s.palmStartTime then s.palmStartTime.getD 0 else now
      let s1 := { s with palmStartTime := some palmStart }
      if 1200 < now - palmStart then
        if s1.state ≠ .idle then
          let r := resetState s1
          ({ r.1 with palmStartTime := none }, .reset :: r.2)
        else (s1, [])
      else (s1, [])
    else
      let s1 := { s with palmStartTime := none }
      if gesture = .point ∧ swipeGeom landmarks then
        if ¬ optTruthy s1.switchCooldown ∨ 1200 < now - s1.switchCooldown.getD 0 then
          let dx := (landmarks.getD 8 ptZero).x - (landmarks.getD 5 ptZero).x
          ({ s1 with switchCooldown := some now, state := .switching },
           [.swipe (if 0 < dx then "RIGHT" else "LEFT")])
        else (s1, [])
      else if gesture = .fist ∨ gesture = .point then
        rotationBranch s1 now indexTip
      else
        resetState s1

/-- One input frame: the per-frame hand list, the handedness labels, and
the wall-clock time (`Date.now()`) at which the frame is processed. -/
structure Frame where
  hands : List Hand
  handedness : List String
  t : ℚ

/-- Squared distance of the first two hands' centroids (the source
compares `Math.hypot` of the differences against `0.12`; squaring both
sides is exact since both are nonnegative). -/
def twoDistSq (fr : Frame) : ℚ :=
  let c1 := getHandCenter (fr.hands.getD 0 [])
  let c2 := getHandCenter (fr.hands.getD 1 [])
  (c1.1 - c2.1)^2 + (c1.2 - c2.2)^2

/-- Handedness check of `processFrame`: one label `Left`/`left` and one
`Right`/`right`. -/
def hasLeftRight (fr : Frame) : Bool :=
  (fr.handedness.contains "Left" || fr.handedness.contains "left") &&
  (fr.handedness.contains "Right" || fr.handedness.contains "right")

/-- `processFrame(results)` as a step relation.  It is a relation rather
than a function only because the genuine two-hand branch needs the exact
Euclidean inter-centroid distance `d`, characterised here by `0 ≤ d` and
`d^2 = twoDistSq fr`; every other branch is the corresponding
function. -/
inductive ProcessFrame : Eng → Frame → Eng → List Event → Prop where
  | noHands (s : Eng) (fr : Frame) (s' : Eng) (ev : List Event) :
      fr.hands = [] → resetState s = (s', ev) → ProcessFrame s fr s' ev
  | ghost (s : Eng) (fr : Frame) (s' : Eng) (ev : List Event) :
      2 ≤ fr.hands.length → twoDistSq fr < (12/100)^2 →
      handleSingleHandGestures s fr.t (fr.hands.getD 0 []) = (s', ev) →
      ProcessFrame s fr s' ev
  | twoHands (s : Eng) (fr : Frame) (d : ℚ) (s' : Eng) (ev : List Event) :
      2 ≤ fr.hands.length → ¬ twoDistSq fr < (12/100)^2 →
      hasLeftRight fr = true → 0 ≤ d → d^2 = twoDistSq fr →
      handleTwoHandGestures s d = (s', ev) → ProcessFrame s fr s' ev
  | fallback (s : Eng) (fr : Frame) (s' : Eng) (ev : List Event) :
      2 ≤ fr.hands.length → ¬ twoDistSq fr < (12/100)^2 →
      hasLeftRight fr = false →
      handleSingleHandGestures s fr.t (fr.hands.getD 0 []) = (s', ev) →
      ProcessFrame s fr s' ev
  | oneHand (s : Eng) (fr : Frame) (h : Hand) (s' : Eng) (ev : List Event) :
      fr.hands = [h] →
      handleSingleHandGestures s fr.t h = (s', ev) →
      ProcessFrame s fr s' ev

/-- A run of the engine over a list of frames, accumulating the emitted
events in order. -/
inductive Run : Eng → List Frame → Eng → List Event → Prop where
  | nil (s : Eng) : Run s [] s []
  | cons (s : Eng) (fr : Frame) (frs : List Frame) (s1 s2 : Eng)
      (ev1 ev2 : List Event) :
      ProcessFrame s fr s1 ev1 → Run s1 frs s2 ev2 →
      Run s (fr :: frs) s2 (ev1 ++ ev2)

/-- Executable form of `processFrame`: identical dispatch, with the
genuine two-hand branch's Euclidean distance supplied as the extra
argument `d` (ignored by every other branch).
`processFrameD_sound` below relates it to `ProcessFrame`. -/
def processFrameD (s : Eng) (fr : Frame) (d : ℚ) : Eng × List Event :=
  if fr.hands = [] then resetState s
  else if 2 ≤ fr.hands.length then
    if twoDistSq fr < (12/100)^2 then
      handleSingleHandGestures s fr.t (fr.hands.getD 0 [])
    else if hasLeftRight fr then handleTwoHandGestures s d
    else handleSingleHandGestures s fr.t (fr.hands.getD 0 [])
  else handleSingleHandGestures s fr.t (fr.hands.getD 0 [])

/-- Executable run over frames paired with their two-hand distances. -/
def runD (s : Eng) : List (Frame × ℚ) → Eng × List Event
  | [] => (s, [])
  | (fr, d) :: rest =>
      let r := processFrameD s fr d
      let k := runD r.1 rest
      (k.1, r.2 ++ k.2)

/-- Recogniser for `swipe` events. -/
def isSwipeEv : Event → Bool
  | .swipe _ => true
  | _ => false

/-- Recogniser for `reset` events. -/
def isResetEv : Event → Bool
  | .reset => true
  | _ => false

/-- The hand that `processFrame` routes to `handleSingleHandGestures`
for a given frame, if any: the only detection, the first of two ghosting
detections, or the first detection when the handedness check fails. -/
def dispatchedSingle (fr : Frame) : Option Hand :=
  match fr.hands with
  | [] => none
  | [h] => some h
  | h :: _ :: _ =>
      if twoDistSq fr < (12/100)^2 then some h
      else if hasLeftRight fr then none
      else some h

/-- A frame that reaches the swipe branch with the horizontal-point
geometry satisfied (a "qualifying horizontal-point gesture"). -/
def qualifying (fr : Frame) : Prop :=
  ∃ h, dispatchedSingle fr = some h ∧ detectGesture h = .point ∧ swipeGeom h

/-- All frames of a list carry exactly one hand classified as Palm. -/
def palmFrames (frames : List Frame) : Prop :=
  ∀ f ∈ frames, ∃ h, f.hands = [h] ∧ detectGesture h = .palm

/-- A 21-landmark hand with every tip above its pip: classified Palm. -/
def palmHand : Hand := List.replicate 21 ptZero

/-- A 21-landmark hand with every tip below its pip: classified Fist;
`x` positions the index tip (landmark 8). -/
def fistHand (x : ℚ) : Hand :=
  (List.range 21).map fun i =>
    if i = 8 then ⟨x, 1, 0⟩
    else if i = 4 ∨ i = 12 ∨ i = 16 ∨ i = 20 then ⟨0, 1, 0⟩
    else ptZero

/-- A 21-landmark hand with only the index extended and the
knuckle-to-tip vector horizontal of length `0.1`: a qualifying
rightward point. -/
def pointHand : Hand :=
  (List.range 21).map fun i =>
    if i = 8 then ⟨1/10, 0, 0⟩
    else if i = 4 ∨ i = 12 ∨ i = 16 ∨ i = 20 then ⟨0, 1, 0⟩
    else ptZero

/-- Single-hand frame at time `t`. -/
def oneFr (h : Hand) (t : ℚ) : Frame := ⟨[h], ["Right"], t⟩

/-- Genuine two-hand frame: centroids `(0,0)` and `(1/2,0)`, distance
`1/2` (beyond the `0.12` ghost threshold), labels Left and Right. -/
def twoFr (t : ℚ) : Frame := ⟨[[⟨0, 0, 0⟩], [⟨1/2, 0, 0⟩]], ["Left", "Right"], t⟩

/-- Ghosting frame: two detections with centroids `0.05` apart. -/
def ghostFr (t : ℚ) : Frame := ⟨[[⟨0, 0, 0⟩], [⟨1/20, 0, 0⟩]], ["Left", "Right"], t⟩

end GestureEngine

namespace HandTracker

/-- `smoothLandmarks(landmarks, handIndex)`, acting on one slot's buffer:
push the raw set, drop the oldest frame beyond the window of 3, and
return the new buffer with the pointwise arithmetic mean across it. -/
def smoothLandmarks (history : List (List Pt)) (landmarks : List Pt) :
    List (List Pt) × List Pt :=
  let pushed := history ++ [landmarks]
  let kept := if 3 < pushed.length then pushed.tail else pushed
  (kept,
   (List.range landmarks.length).map fun i =>
     ⟨(kept.map fun frame => (frame.getD i ptZero).x).sum / kept.length,
      (kept.map fun frame => (frame.getD i ptZero).y).sum / kept.length,
      (kept.map fun frame => (frame.getD i ptZero).z).sum / kept.length⟩)

/-- The `forEach` of `handleResults`: smooth each present hand into its
positional slot, starting at slot `i`.  Slots without a hand this frame
are not touched. -/
def handleResultsAux (history : ℕ → List (List Pt)) (hands : List (List Pt))
    (i : ℕ) : (ℕ → List (List Pt)) × List (List Pt) :=
  match hands with
  | [] => (history, [])
  | lm :: rest =>
      let r := smoothLandmarks (history i) lm
      let history' := fun j => if j = i then r.1 else history j
      let k := handleResultsAux history' rest (i + 1)
      (k.1, r.2 :: k.2)

/-- `handleResults(results)`: apply temporal smoothing to each detected
hand; vacant slots keep their buffers. -/
def handleResults (history : ℕ → List (List Pt)) (hands : List (List Pt)) :
    (ℕ → List (List Pt)) × List (List Pt) :=
  handleResultsAux history hands 0

/-- Fold `handleResults` over a sequence of frames, collecting each
frame's smoothed hand list. -/
def trackerRun (history : ℕ → List (List Pt)) :
    List (List (List Pt)) → (ℕ → List (List Pt)) × List (List (List Pt))
  | [] => (history, [])
  | f :: fs =>
      let r := handleResults history f
      let k := trackerRun r.1 fs
      (k.1, r.2 :: k.2)

/-- Buffer state at tracker construction: every slot empty. -/
def emptyHist : ℕ → List (List Pt) := fun _ => []

end HandTracker

end IronMan

open IronMan IronMan.GestureEngine IronMan.HandTracker

/-- The executable dispatch agrees with the `processFrame` step relation
whenever the supplied `d` is the genuine two-hand centroid distance. -/
theorem processFrameD_sound (s : Eng) (fr : Frame) (d : ℚ)
    (hd : 2 ≤ fr.hands.length → ¬ twoDistSq fr < (12/100)^2 →
      hasLeftRight fr = true → 0 ≤ d ∧ d^2 = twoDistSq fr) :
    ProcessFrame s fr (processFrameD s fr d).1 (processFrameD s fr d).2 := by
  by_cases h0 : fr.hands = []
  · exact ProcessFrame.noHands s fr _ _ h0 (by simp [processFrameD, h0])
  · by_cases h2 : 2 ≤ fr.hands.length
    · by_cases hg : twoDistSq fr < (12/100)^2
      · exact ProcessFrame.ghost s fr _ _ h2 hg (by simp [processFrameD, h0, h2, hg])
      · by_cases hlr : hasLeftRight fr = true
        · exact ProcessFrame.twoHands s fr d _ _ h2 hg hlr (hd h2 hg hlr).1
            (hd h2 hg hlr).2 (by simp [processFrameD, h0, h2, hg, hlr])
        · exact ProcessFrame.fallback s fr _ _ h2 hg (by simpa using hlr)
            (by simp [processFrameD, h0, h2, hg, hlr])
    · obtain ⟨h, hh⟩ : ∃ h, fr.hands = [h] := by
        cases hh : fr.hands with
        | nil => exact absurd hh h0
        | cons a l =>
            cases l with
            | nil => exact ⟨a, rfl⟩
            | cons b l2 => exfalso; rw [hh] at h2; simp at h2
      have he : processFrameD s fr d = handleSingleHandGestures s fr.t h := by
        simp [processFrameD, h0, h2, hh]
      exact ProcessFrame.oneHand s fr h _ _ hh (by rw [← he])

/-- The executable run agrees with the `Run` relation. -/
theorem runD_sound (l : List (Frame × ℚ)) (s : Eng)
    (hl : ∀ p ∈ l, 2 ≤ p.1.hands.length → ¬ twoDistSq p.1 < (12/100)^2 →
      hasLeftRight p.1 = true → 0 ≤ p.2 ∧ p.2^2 = twoDistSq p.1) :
    Run s (l.map Prod.fst) (runD s l).1 (runD s l).2 := by
  induction l generalizing s with
  | nil => exact Run.nil s
  | cons p rest ih =>
      obtain ⟨fr, d⟩ := p
      have hstep := processFrameD_sound s fr d (fun a b c => hl (fr, d) (by simp) a b c)
      have htail := ih (processFrameD s fr d).1 (fun q hq => hl q (by simp [hq]))
      have hrun := Run.cons s fr (rest.map Prod.fst) _ _ _ _ hstep htail
      simpa [runD] using hrun

@[simp] theorem optTruthy_none : optTruthy none = false := rfl

@[simp] theorem optTruthy_some (x : ℚ) : optTruthy (some x) = decide (x ≠ 0) := rfl

theorem singleHand_palm_arm (s : Eng) (now : ℚ) (h : Hand) (t0 : ℚ)
    (hdead : s.swipeCooldownTimestamp = none) (hg : detectGesture h = .palm)
    (hps : s.palmStartTime = some t0) (ht0 : t0 ≠ 0) (hle : ¬ 1200 < now - t0) :
    handleSingleHandGestures s now h = ({ s with palmStartTime := some t0 }, []) := by
  simp [handleSingleHandGestures, hdead, hg, hps, ht0, hle]

theorem singleHand_palm_fresh (s : Eng) (now : ℚ) (h : Hand)
    (hdead : s.swipeCooldownTimestamp = none) (hg : detectGesture h = .palm)
    (hfalsy : optTruthy s.palmStartTime = false) :
    handleSingleHandGestures s now h = ({ s with palmStartTime := some now }, []) := by
  simp [handleSingleHandGestures, hdead, hg, hfalsy]

theorem singleHand_palm_fire (s : Eng) (now : ℚ) (h : Hand) (t0 : ℚ)
    (hdead : s.swipeCooldownTimestamp = none) (hg : detectGesture h = .palm)
    (hps : s.palmStartTime = some t0) (ht0 : t0 ≠ 0)
    (hgt : 1200 < now - t0) (hst : s.state ≠ .idle) :
    handleSingleHandGestures s now h =
      ({ s with
          state := .idle, lastHandPosition := none, pinchStartDistance := none,
          gestureStartTime := none, palmStartTime := none },
       .reset :: (if s.state = .locked then [.unlock] else [])) := by
  simp [handleSingleHandGestures, resetState, hdead, hg, hps, ht0, hgt, hst]

theorem singleHand_palm_idleLate (s : Eng) (now : ℚ) (h : Hand) (t0 : ℚ)
    (hdead : s.swipeCooldownTimestamp = none) (hg : detectGesture h = .palm)
    (hps : s.palmStartTime = some t0) (ht0 : t0 ≠ 0)
    (hgt : 1200 < now - t0) (hst : s.state = .idle) :
    handleSingleHandGestures s now h = ({ s with palmStartTime := some t0 }, []) := by
  simp [handleSingleHandGestures, hdead, hg, hps, ht0, hgt, hst]

theorem rotationBranch_fields (s : Eng) (now : ℚ) (tip : Pt) :
    (rotationBranch s now tip).1.palmStartTime = s.palmStartTime ∧
    (rotationBranch s now tip).1.switchCooldown = s.switchCooldown ∧
    (rotationBranch s now tip).1.swipeCooldownTimestamp = s.swipeCooldownTimestamp := by
  unfold rotationBranch resetState
  cases s.lastHandPosition
  · simp
  · simp
    split_ifs <;> simp_all

theorem rotationBranch_events (s : Eng) (now : ℚ) (tip : Pt) :
    ∀ e ∈ (rotationBranch s now tip).2,
      (∃ a b, e = Event.rotate a b) ∨ (e = Event.unlock ∧ s.state = .locked) := by
  unfold rotationBranch resetState
  cases hl : s.lastHandPosition with
  | none => simp
  | some p =>
      simp only []
      split_ifs <;> intro e he <;> simp_all

theorem twoHand_fields (s : Eng) (d : ℚ) :
    (handleTwoHandGestures s d).1.palmStartTime = s.palmStartTime ∧
    (handleTwoHandGestures s d).1.switchCooldown = s.switchCooldown ∧
    (handleTwoHandGestures s d).1.lastMoveTime = s.lastMoveTime ∧
    (handleTwoHandGestures s d).1.swipeCooldownTimestamp = s.swipeCooldownTimestamp ∧
    ((handleTwoHandGestures s d).1.state = .pinching ∨
      (handleTwoHandGestures s d).1.state = s.state) := by
  unfold handleTwoHandGestures
  cases s.pinchStartDistance
  · simp
  · simp
    split_ifs <;> simp

theorem twoHand_events (s : Eng) (d : ℚ) :
    ∀ e ∈ (handleTwoHandGestures s d).2, ∃ k, e = Event.zoom k := by
  unfold handleTwoHandGestures
  cases s.pinchStartDistance
  · simp
  · simp
    split_ifs <;> simp

theorem resetState_fields (s : Eng) :
    (resetState s).1.state = .idle ∧
    (resetState s).1.palmStartTime = s.palmStartTime ∧
    (resetState s).1.switchCooldown = s.switchCooldown ∧
    (resetState s).1.lastMoveTime = s.lastMoveTime ∧
    (resetState s).1.swipeCooldownTimestamp = s.swipeCooldownTimestamp := by
  simp [resetState]

theorem resetState_events (s : Eng) (hnl : s.state ≠ .locked) :
    (resetState s).2 = [] := by
  simp [resetState, hnl]

theorem singleHand_dead (s : Eng) (now : ℚ) (h : Hand) :
    (handleSingleHandGestures s now h).1.swipeCooldownTimestamp
      = s.swipeCooldownTimestamp := by
  by_cases hguard : optTruthy s.swipeCooldownTimestamp = true ∧
      now < s.swipeCooldownTimestamp.getD 0
  · simp [handleSingleHandGestures, hguard]
  · simp only [handleSingleHandGestures, if_neg hguard]
    by_cases hpalm : detectGesture h = .palm
    · simp only [if_pos hpalm]
      split_ifs <;> simp [resetState]
    · simp only [if_neg hpalm]
      by_cases hsw : detectGesture h = .point ∧ swipeGeom h
      · simp only [if_pos hsw]
        split_ifs <;> simp
      · simp only [if_neg hsw]
        by_cases hrot : detectGesture h = .fist ∨ detectGesture h = .point
        · simp only [if_pos hrot]
          simp [rotationBranch_fields]
        · simp only [if_neg hrot]
          simp [resetState]

theorem singleHand_nonpalm_clears (s : Eng) (now : ℚ) (h : Hand)
    (hdead : s.swipeCooldownTimestamp = none) (hg : detectGesture h ≠ .palm) :
    (handleSingleHandGestures s now h).1.palmStartTime = none := by
  have hguard : ¬ (optTruthy s.swipeCooldownTimestamp = true ∧
      now < s.swipeCooldownTimestamp.getD 0) := by simp [hdead]
  simp only [handleSingleHandGestures, if_neg hguard, if_neg hg]
  by_cases hsw : detectGesture h = .point ∧ swipeGeom h
  · simp only [if_pos hsw]
    split_ifs <;> simp
  · simp only [if_neg hsw]
    by_cases hrot : detectGesture h = .fist ∨ detectGesture h = .point
    · simp only [if_pos hrot]
      simp [rotationBranch_fields]
    · simp only [if_neg hrot]
      simp [resetState]

theorem rotationBranch_noswipe (s : Eng) (now : ℚ) (tip : Pt) :
    (rotationBranch s now tip).2.countP isSwipeEv = 0 :=
  List.countP_eq_zero.mpr fun e he => by
    rcases rotationBranch_events s now tip e he with ⟨a, b, rfl⟩ | ⟨rfl, _⟩ <;>
      simp [isSwipeEv]

theorem singleHand_noswipe (s : Eng) (now : ℚ) (h : Hand)
    (hnq : ¬ (detectGesture h = .point ∧ swipeGeom h)) :
    (handleSingleHandGestures s now h).2.countP isSwipeEv = 0 ∧
    (handleSingleHandGestures s now h).1.switchCooldown = s.switchCooldown := by
  by_cases hguard : optTruthy s.swipeCooldownTimestamp = true ∧
      now < s.swipeCooldownTimestamp.getD 0
  · simp [handleSingleHandGestures, hguard]
  · simp only [handleSingleHandGestures, if_neg hguard]
    by_cases hpalm : detectGesture h = .palm
    · simp only [if_pos hpalm]
      split_ifs <;> simp_all [resetState, isSwipeEv]
    · simp only [if_neg hpalm, if_neg hnq]
      by_cases hrot : detectGesture h = .fist ∨ detectGesture h = .point
      · simp only [if_pos hrot]
        exact ⟨rotationBranch_noswipe _ _ _, (rotationBranch_fields _ _ _).2.1⟩
      · simp only [if_neg hrot]
        simp [resetState, isSwipeEv]

theorem singleHand_swipe_fire (s : Eng) (now : ℚ) (h : Hand)
    (hdead : s.swipeCooldownTimestamp = none)
    (hq : detectGesture h = .point) (hgeo : swipeGeom h)
    (hcd : optTruthy s.switchCooldown = false ∨ 1200 < now - s.switchCooldown.getD 0) :
    handleSingleHandGestures s now h =
      ({ s with palmStartTime := none, switchCooldown := some now, state := .switching },
       [Event.swipe
         (if 0 < (h.getD 8 ptZero).x - (h.getD 5 ptZero).x then "RIGHT" else "LEFT")]) := by
  have hguard : ¬ (optTruthy s.swipeCooldownTimestamp = true ∧
      now < s.swipeCooldownTimestamp.getD 0) := by simp [hdead]
  have hpalm : detectGesture h ≠ .palm := by simp [hq]
  have hcd' : ¬ optTruthy s.switchCooldown = true ∨ 1200 < now - s.switchCooldown.getD 0 := by
    rcases hcd with hcd | hcd
    · exact Or.inl (by simp [hcd])
    · exact Or.inr hcd
  have hsw : detectGesture h = .point ∧ swipeGeom h := ⟨hq, hgeo⟩
  simp only [handleSingleHandGestures, if_neg hguard, if_neg hpalm, if_pos hsw]
  simp only [if_pos hcd']

theorem singleHand_swipe_cooled (s : Eng) (now : ℚ) (h : Hand) (c : ℚ)
    (hdead : s.swipeCooldownTimestamp = none)
    (hq : detectGesture h = .point) (hgeo : swipeGeom h)
    (hc : s.switchCooldown = some c) (hc0 : c ≠ 0) (hle : ¬ 1200 < now - c) :
    handleSingleHandGestures s now h = ({ s with palmStartTime := none }, []) := by
  have hguard : ¬ (optTruthy s.swipeCooldownTimestamp = true ∧
      now < s.swipeCooldownTimestamp.getD 0) := by simp [hdead]
  have hpalm : detectGesture h ≠ .palm := by simp [hq]
  have hcd : ¬ (¬ optTruthy s.switchCooldown = true ∨
      1200 < now - s.switchCooldown.getD 0) := by
    rw [hc]
    push_neg
    exact ⟨by simp [optTruthy, hc0], by simpa using not_lt.mp hle⟩
  have hsw : detectGesture h = .point ∧ swipeGeom h := ⟨hq, hgeo⟩
  simp only [handleSingleHandGestures, if_neg hguard, if_neg hpalm, if_pos hsw]
  simp only [if_neg hcd]

theorem rotationBranch_not_locked (s : Eng) (now : ℚ) (tip : Pt)
    (hnl : s.state ≠ .locked) :
    (rotationBranch s now tip).1.state ≠ .locked ∧
    ∀ e ∈ (rotationBranch s now tip).2, e ≠ .lock ∧ e ≠ .unlock := by
  constructor
  · unfold rotationBranch resetState
    cases s.lastHandPosition
    · simp_all
    · simp_all
      split_ifs <;> simp_all
  · intro e he
    rcases rotationBranch_events s now tip e he with ⟨a, b, rfl⟩ | ⟨rfl, hlk⟩
    · simp
    · exact absurd hlk hnl

theorem singleHand_not_locked (s : Eng) (now : ℚ) (h : Hand)
    (hnl : s.state ≠ .locked) :
    (handleSingleHandGestures s now h).1.state ≠ .locked ∧
    ∀ e ∈ (handleSingleHandGestures s now h).2, e ≠ .lock ∧ e ≠ .unlock := by
  by_cases hguard : optTruthy s.swipeCooldownTimestamp = true ∧
      now < s.swipeCooldownTimestamp.getD 0
  · simp [handleSingleHandGestures, hguard, hnl]
  · simp only [handleSingleHandGestures, if_neg hguard]
    by_cases hpalm : detectGesture h = .palm
    · simp only [if_pos hpalm]
      split_ifs <;> simp_all [resetState]
    · simp only [if_neg hpalm]
      by_cases hsw : detectGesture h = .point ∧ swipeGeom h
      · simp only [if_pos hsw]
        split_ifs <;> simp_all
      · simp only [if_neg hsw]
        by_cases hrot : detectGesture h = .fist ∨ detectGesture h = .point
        · simp only [if_pos hrot]
          exact rotationBranch_not_locked _ now _ hnl
        · simp only [if_neg hrot]
          simp_all [resetState]

theorem singleHand_no_zoom (s : Eng) (now : ℚ) (h : Hand) (k : ℚ) :
    Event.zoom k ∉ (handleSingleHandGestures s now h).2 := by
  by_cases hguard : optTruthy s.swipeCooldownTimestamp = true ∧
      now < s.swipeCooldownTimestamp.getD 0
  · simp [handleSingleHandGestures, hguard]
  · simp only [handleSingleHandGestures, if_neg hguard]
    by_cases hpalm : detectGesture h = .palm
    · simp only [if_pos hpalm]
      split_ifs <;> simp_all [resetState]
    · simp only [if_neg hpalm]
      by_cases hsw : detectGesture h = .point ∧ swipeGeom h
      · simp only [if_pos hsw]
        split_ifs <;> simp
      · simp only [if_neg hsw]
        by_cases hrot : detectGesture h = .fist ∨ detectGesture h = .point
        · simp only [if_pos hrot]
          intro he
          rcases rotationBranch_events _ now _ _ he with ⟨a, b, hab⟩ | ⟨hab, _⟩ <;>
            simp at hab
        · simp only [if_neg hrot]
          simp [resetState]

/-- C2 evaluated at the failing input: a swipe fires at `t = 1000`
(setting only `switchCooldown`); the fist frames at `t = 1100` and
`t = 1160` — both less than 1200 ms later — are nonetheless fully
processed: the anchor and gesture-start timer are written at `1100`,
the state moves to `tracking` and then `rotating`, and a `rotate` event
is emitted at `1160`.  The skip guard reads `swipeCooldownTimestamp`,
which no code path ever assigns, so it never fires. -/
theorem c2_cooldown_dead :
    Run initEngine
      [oneFr pointHand 1000, oneFr (fistHand 0) 1100, oneFr (fistHand 0) 1160]
      { initEngine with
          state := .rotating, gestureStartTime := some 1100,
          lastHandPosition := some ⟨0, 1, 0, 1⟩, switchCooldown := some 1000 }
      [Event.swipe "RIGHT", Event.rotate 0 0] := by
  have h := runD_sound
    [(oneFr pointHand 1000, 0), (oneFr (fistHand 0) 1100, 0), (oneFr (fistHand 0) 1160, 0)]
    initEngine (by decide)
  have e1 : (runD initEngine
      [(oneFr pointHand 1000, 0), (oneFr (fistHand 0) 1100, 0), (oneFr (fistHand 0) 1160, 0)]).1
      = { initEngine with
            state := .rotating, gestureStartTime := some 1100,
            lastHandPosition := some ⟨0, 1, 0, 1⟩, switchCooldown := some 1000 } := by decide
  have e2 : (runD initEngine
      [(oneFr pointHand 1000, 0), (oneFr (fistHand 0) 1100, 0), (oneFr (fistHand 0) 1160, 0)]).2
      = [Event.swipe "RIGHT", Event.rotate 0 0] := by decide
  rw [e1, e2] at h
  exact h

/-- C4 counterexample: a Palm frame at `t = 1000` arms the palm timer; a
genuine two-hand frame at `t = 1300` (inter-centroid distance `1/2`)
moves to `pinching` but leaves `palmStartTime` untouched; the next Palm
frame at `t = 2500` then finds `2500 - 1000 > 1200` with a non-idle
state and emits `Reset` — even though the Palm hold was interrupted by a
two-hand frame. -/
theorem c4_counterexample :
    Run initEngine [oneFr palmHand 1000, twoFr 1300, oneFr palmHand 2500]
      initEngine [Event.reset] := by
  have h := runD_sound
    [(oneFr palmHand 1000, 0), (twoFr 1300, 1/2), (oneFr palmHand 2500, 0)]
    initEngine (by decide)
  have e1 : (runD initEngine
      [(oneFr palmHand 1000, 0), (twoFr 1300, 1/2), (oneFr palmHand 2500, 0)]).1
      = initEngine := by decide
  have e2 : (runD initEngine
      [(oneFr palmHand 1000, 0), (twoFr 1300, 1/2), (oneFr palmHand 2500, 0)]).2
      = [Event.reset] := by decide
  rw [e1, e2] at h
  exact h

/-- C6 counterexample: with the engine already `idle`, a continuous Palm
classification from `t = 1000` to `t = 2201` (1201 ms) emits no `Reset`
at all — the source fires only when the state is not `idle`. -/
theorem c6_counterexample :
    Run initEngine [oneFr palmHand 1000, oneFr palmHand 2201]
      { initEngine with palmStartTime := some 1000 } [] := by
  have h := runD_sound [(oneFr palmHand 1000, 0), (oneFr palmHand 2201, 0)]
    initEngine (by decide)
  have e1 : (runD initEngine [(oneFr palmHand 1000, 0), (oneFr palmHand 2201, 0)]).1
      = { initEngine with palmStartTime := some 1000 } := by decide
  have e2 : (runD initEngine [(oneFr palmHand 1000, 0), (oneFr palmHand 2201, 0)]).2
      = [] := by decide
  rw [e1, e2] at h
  exact h

/-- C9 counterexample: a fist whose index tip never moves.  The anchor is
latched at `t = 1000`, the state is `rotating` from `t = 1060`, and the
per-frame movement is `0 ≤ 0.002` throughout; at `t = 1400` stillness
has lasted 400 ms, yet the state is still `rotating` — the auto-idle
guard requires `lastMoveTime` to be set, which only a movement above
`0.002` ever does. -/
theorem c9_counterexample :
    Run initEngine
      [oneFr (fistHand 0) 1000, oneFr (fistHand 0) 1060, oneFr (fistHand 0) 1400]
      { initEngine with
          state := .rotating, gestureStartTime := some 1000,
          lastHandPosition := some ⟨0, 1, 0, 1⟩ }
      [Event.rotate 0 0, Event.rotate 0 0] ∧ St.rotating ≠ St.idle := by
  refine ⟨?_, by decide⟩
  have h := runD_sound
    [(oneFr (fistHand 0) 1000, 0), (oneFr (fistHand 0) 1060, 0), (oneFr (fistHand 0) 1400, 0)]
    initEngine (by decide)
  have e1 : (runD initEngine
      [(oneFr (fistHand 0) 1000, 0), (oneFr (fistHand 0) 1060, 0), (oneFr (fistHand 0) 1400, 0)]).1
      = { initEngine with
            state := .rotating, gestureStartTime := some 1000,
            lastHandPosition := some ⟨0, 1, 0, 1⟩ } := by decide
  have e2 : (runD initEngine
      [(oneFr (fistHand 0) 1000, 0), (oneFr (fistHand 0) 1060, 0), (oneFr (fistHand 0) 1400, 0)]).2
      = [Event.rotate 0 0, Event.rotate 0 0] := by decide
  rw [e1, e2] at h
  exact h

/-- C1: over two consecutive frames handled by the two-hand pinch branch
with inter-hand centroid distances `d0` then `d1` (`d0 > 0`) — regardless
of whether the first frame established or updated the baseline — the
second frame emits `zoom` with
`scaleFactor = 1 + (clamp(d1/d0, 0.85, 1.15) - 1) * 1.5` exactly when
`|scaleFactor - 1| > 0.0005`, emits nothing otherwise, and updates the
baseline to `d1` in either case. -/
theorem c1_zoom (s0 : Eng) (d0 d1 : ℚ) (h0 : 0 < d0) :
    (handleTwoHandGestures (handleTwoHandGestures s0 d0).1 d1).1.pinchStartDistance
        = some d1 ∧
    (handleTwoHandGestures (handleTwoHandGestures s0 d0).1 d1).2 =
      (if 1/2000 < |(1 + (max (85/100) (min (115/100) (d1 / d0)) - 1) * (3/2)) - 1| then
        [Event.zoom (1 + (max (85/100) (min (115/100) (d1 / d0)) - 1) * (3/2))]
       else []) := by
  cases hp : s0.pinchStartDistance with
  | none => simp [handleTwoHandGestures, hp, h0]
  | some prev =>
      by_cases hprev : 0 < prev
      · simp [handleTwoHandGestures, hp, hprev, h0]
      · simp [handleTwoHandGestures, hp, hprev, h0]

/-- C1 witness: from the fresh engine, baseline frame at distance `1`
then a frame at distance `2`: the ratio clamps to `1.15`, the amplified
factor is `49/40 = 1.225`, a zoom is emitted and the baseline becomes
`2`. -/
theorem c1_zoom_witness :
    (handleTwoHandGestures (handleTwoHandGestures initEngine 1).1 2).1.pinchStartDistance
        = some 2 ∧
    (handleTwoHandGestures (handleTwoHandGestures initEngine 1).1 2).2 =
      [Event.zoom (49/40)] := by
  have h := c1_zoom initEngine 1 2 (by norm_num)
  refine ⟨h.1, ?_⟩
  rw [h.2]
  norm_num [max_def, min_def, abs_of_nonneg]

/-- C3 counterexample: with only the middle finger extended
(`E = 1`, index not extended) the claim's cascade returns `Unknown`,
but the source classifier falls through to its strict-count fallback
(`extendedCount === 1`) and returns `Point`. -/
theorem c3_counterexample :
    classifyStates [false, false, true, false, false] = Gesture.point ∧
    classifyStatesC3Spec [false, false, true, false, false] = Gesture.unknown := by
  decide

/-- C3 amended: the source cascade is Palm iff `E ≥ 4`; else Victory iff
index and middle extended and ring and pinky not; else Fist iff `E = 0`
or `E = 1` with only the thumb; else Point iff the index is extended
**or `E = 1`** (the source's fallback for a single extended non-index,
non-thumb digit); otherwise Unknown — in this priority order. -/
theorem c3_amended :
    ∀ t i m r p : Bool,
      classifyStates [t, i, m, r, p] =
        (let e := [t, i, m, r, p].countP id
         if 4 ≤ e then Gesture.palm
         else if i ∧ m ∧ ¬ r ∧ ¬ p then Gesture.victory
         else if e = 0 ∨ (e = 1 ∧ t) then Gesture.fist
         else if i then Gesture.point
         else if e = 1 then Gesture.point
         else Gesture.unknown) := by
  decide

theorem dispatchedSingle_none (fr : Frame) (h2 : 2 ≤ fr.hands.length)
    (hg : ¬ twoDistSq fr < (12/100)^2) (hlr : hasLeftRight fr = true) :
    dispatchedSingle fr = none := by
  cases hh : fr.hands with
  | nil => rw [hh] at h2; simp at h2
  | cons a tl =>
      cases tl with
      | nil => rw [hh] at h2; simp at h2
      | cons b rest => simp [dispatchedSingle, hh, hg, hlr]

theorem processFrame_dispatch (s : Eng) (fr : Frame) (s' : Eng) (ev : List Event)
    (pf : ProcessFrame s fr s' ev) :
    (fr.hands = [] ∧ resetState s = (s', ev)) ∨
    (∃ h, dispatchedSingle fr = some h ∧
      handleSingleHandGestures s fr.t h = (s', ev)) ∨
    (∃ d, 2 ≤ fr.hands.length ∧ ¬ twoDistSq fr < (12/100)^2 ∧
      hasLeftRight fr = true ∧ 0 ≤ d ∧ d^2 = twoDistSq fr ∧
      handleTwoHandGestures s d = (s', ev)) := by
  cases pf with
  | noHands _ _ h0 he => exact Or.inl ⟨h0, he⟩
  | ghost _ _ h2 hg he =>
      refine Or.inr (Or.inl ?_)
      cases hh : fr.hands with
      | nil => rw [hh] at h2; simp at h2
      | cons a tl =>
          cases tl with
          | nil => rw [hh] at h2; simp at h2
          | cons b rest =>
              refine ⟨a, by simp [dispatchedSingle, hh, hg], ?_⟩
              rw [hh] at he
              simpa using he
  | twoHands d _ _ h2 hg hlr hd0 hdsq he =>
      exact Or.inr (Or.inr ⟨d, h2, hg, hlr, hd0, hdsq, he⟩)
  | fallback _ _ h2 hg hlr he =>
      refine Or.inr (Or.inl ?_)
      cases hh : fr.hands with
      | nil => rw [hh] at h2; simp at h2
      | cons a tl =>
          cases tl with
          | nil => rw [hh] at h2; simp at h2
          | cons b rest =>
              refine ⟨a, by simp [dispatchedSingle, hh, hg, hlr], ?_⟩
              rw [hh] at he
              simpa using he
  | oneHand h1 _ _ hh1 he =>
      refine Or.inr (Or.inl ⟨h1, by simp [dispatchedSingle, hh1], he⟩)

theorem processFrame_oneHand_inv (s : Eng) (fr : Frame) (h : Hand) (s' : Eng)
    (ev : List Event) (hh : fr.hands = [h]) (pf : ProcessFrame s fr s' ev) :
    handleSingleHandGestures s fr.t h = (s', ev) := by
  cases pf with
  | noHands _ _ h0 he => rw [hh] at h0; simp at h0
  | ghost _ _ h2 hg he => rw [hh] at h2; simp at h2
  | twoHands d _ _ h2 hg hlr hd0 hdsq he => rw [hh] at h2; simp at h2
  | fallback _ _ h2 hg hlr he => rw [hh] at h2; simp at h2
  | oneHand h1 _ _ hh1 he =>
      rw [hh] at hh1
      injection hh1 with hab
      rw [← hab] at he
      exact he

theorem prodEqSplit {A B : Type _} {p : A × B} {a : A} {b : B} (h : p = (a, b)) :
    p.1 = a ∧ p.2 = b := by rw [h]; exact ⟨rfl, rfl⟩

theorem resetState_noswipe (s : Eng) :
    (resetState s).2.countP isSwipeEv = 0 := by
  unfold resetState
  split_ifs <;> simp [isSwipeEv]

theorem step_dead (s : Eng) (fr : Frame) (s' : Eng) (ev : List Event)
    (pf : ProcessFrame s fr s' ev) :
    s'.swipeCooldownTimestamp = s.swipeCooldownTimestamp := by
  rcases processFrame_dispatch s fr s' ev pf with
    ⟨h0, he⟩ | ⟨h, hd, he⟩ | ⟨d, h2, hg, hlr, hd0, hdsq, he⟩
  · rw [← (prodEqSplit he).1]
    exact (resetState_fields s).2.2.2.2
  · rw [← (prodEqSplit he).1]
    exact singleHand_dead s fr.t h
  · rw [← (prodEqSplit he).1]
    exact (twoHand_fields s d).2.2.2.1

theorem step_nonqual (s : Eng) (fr : Frame) (s' : Eng) (ev : List Event)
    (pf : ProcessFrame s fr s' ev) (hnq : ¬ qualifying fr) :
    ev.countP isSwipeEv = 0 ∧ s'.switchCooldown = s.switchCooldown := by
  rcases processFrame_dispatch s fr s' ev pf with
    ⟨h0, he⟩ | ⟨h, hd, he⟩ | ⟨d, h2, hg, hlr, hd0, hdsq, he⟩
  · rw [← (prodEqSplit he).1, ← (prodEqSplit he).2]
    exact ⟨resetState_noswipe s, (resetState_fields s).2.2.1⟩
  · rw [← (prodEqSplit he).1, ← (prodEqSplit he).2]
    exact singleHand_noswipe s fr.t h fun contra => hnq ⟨h, hd, contra.1, contra.2⟩
  · rw [← (prodEqSplit he).1, ← (prodEqSplit he).2]
    refine ⟨List.countP_eq_zero.mpr fun e he2 => ?_, (twoHand_fields s d).2.1⟩
    obtain ⟨k, rfl⟩ := twoHand_events s d e he2
    simp [isSwipeEv]

theorem step_qual_fire (s : Eng) (fr : Frame) (s' : Eng) (ev : List Event)
    (pf : ProcessFrame s fr s' ev) (hq : qualifying fr)
    (hdead : s.swipeCooldownTimestamp = none)
    (hcd : optTruthy s.switchCooldown = false ∨
      1200 < fr.t - s.switchCooldown.getD 0) :
    ev.countP isSwipeEv = 1 ∧ s'.switchCooldown = some fr.t := by
  obtain ⟨h, hdisp, hpt, hgeo⟩ := hq
  rcases processFrame_dispatch s fr s' ev pf with
    ⟨h0, he⟩ | ⟨h2, hdisp2, he⟩ | ⟨d, h2, hg, hlr, hd0, hdsq, he⟩
  · simp [dispatchedSingle, h0] at hdisp
  · rw [hdisp] at hdisp2
    injection hdisp2 with hab
    rw [← hab] at he
    rw [singleHand_swipe_fire s fr.t h hdead hpt hgeo hcd] at he
    rw [← (prodEqSplit he).1, ← (prodEqSplit he).2]
    simp [isSwipeEv]
  · rw [dispatchedSingle_none fr h2 hg hlr] at hdisp; simp at hdisp

theorem step_qual_cooled (s : Eng) (fr : Frame) (s' : Eng) (ev : List Event)
    (pf : ProcessFrame s fr s' ev) (hq : qualifying fr)
    (hdead : s.swipeCooldownTimestamp = none) (c : ℚ)
    (hc : s.switchCooldown = some c) (hc0 : c ≠ 0) (hle : ¬ 1200 < fr.t - c) :
    ev.countP isSwipeEv = 0 ∧ s'.switchCooldown = some c := by
  obtain ⟨h, hdisp, hpt, hgeo⟩ := hq
  rcases processFrame_dispatch s fr s' ev pf with
    ⟨h0, he⟩ | ⟨h2, hdisp2, he⟩ | ⟨d, h2, hg, hlr, hd0, hdsq, he⟩
  · simp [dispatchedSingle, h0] at hdisp
  · rw [hdisp] at hdisp2
    injection hdisp2 with hab
    rw [← hab] at he
    rw [singleHand_swipe_cooled s fr.t h c hdead hpt hgeo hc hc0 hle] at he
    rw [← (prodEqSplit he).1, ← (prodEqSplit he).2]
    simp [isSwipeEv, hc]
  · rw [dispatchedSingle_none fr h2 hg hlr] at hdisp; simp at hdisp

theorem step_not_locked (s : Eng) (fr : Frame) (s' : Eng) (ev : List Event)
    (pf : ProcessFrame s fr s' ev) (hnl : s.state ≠ .locked) :
    s'.state ≠ .locked ∧ ∀ e ∈ ev, e ≠ .lock ∧ e ≠ .unlock := by
  rcases processFrame_dispatch s fr s' ev pf with
    ⟨h0, he⟩ | ⟨h, hd, he⟩ | ⟨d, h2, hg, hlr, hd0, hdsq, he⟩
  · rw [← (prodEqSplit he).1, ← (prodEqSplit he).2]
    refine ⟨?_, ?_⟩
    · rw [(resetState_fields s).1]; simp
    · rw [resetState_events s hnl]; simp
  · rw [← (prodEqSplit he).1, ← (prodEqSplit he).2]
    exact singleHand_not_locked s fr.t h hnl
  · rw [← (prodEqSplit he).1, ← (prodEqSplit he).2]
    refine ⟨?_, ?_⟩
    · rcases (twoHand_fields s d).2.2.2.2 with hst | hst <;> rw [hst] <;> simp_all
    · intro e he2
      obtain ⟨k, rfl⟩ := twoHand_events s d e he2
      simp

theorem run_append (l1 l2 : List Frame) : ∀ (s s' : Eng) (ev : List Event),
    Run s (l1 ++ l2) s' ev →
    ∃ s1 ev1 ev2, Run s l1 s1 ev1 ∧ Run s1 l2 s' ev2 ∧ ev = ev1 ++ ev2 := by
  induction l1 with
  | nil => exact fun s s' ev hr => ⟨s, [], ev, Run.nil s, hr, rfl⟩
  | cons f fs ih =>
      intro s s' ev hr
      cases hr with
      | cons _ _ _ s1 _ ev1 ev2 hstep htail =>
          obtain ⟨sm, e1, e2, r1, r2, rfl⟩ := ih s1 s' ev2 htail
          exact ⟨sm, ev1 ++ e1, e2, Run.cons _ _ _ _ _ _ _ hstep r1, r2, by simp⟩

theorem run_nonqual (frames : List Frame) : ∀ (s s' : Eng) (ev : List Event),
    Run s frames s' ev → (∀ f ∈ frames, ¬ qualifying f) →
    ev.countP isSwipeEv = 0 ∧ s'.switchCooldown = s.switchCooldown ∧
    s'.swipeCooldownTimestamp = s.swipeCooldownTimestamp := by
  induction frames with
  | nil =>
      intro s s' ev hr _
      cases hr
      simp
  | cons f fs ih =>
      intro s s' ev hr hq
      cases hr with
      | cons _ _ _ s1 _ ev1 ev2 hstep htail =>
          have h1 := step_nonqual s f s1 ev1 hstep (hq f (by simp))
          have hd := step_dead s f s1 ev1 hstep
          have h2 := ih s1 s' ev2 htail (fun g hg => hq g (by simp [hg]))
          refine ⟨?_, ?_, ?_⟩
          · simp [List.countP_append, h1.1, h2.1]
          · rw [h2.2.1, h1.2]
          · rw [h2.2.2, hd]

/-- C7: in any frame sequence whose only two qualifying horizontal-point
frames are `fi` then `fj` with `fj.t - fi.t < 1200` ms (and a nonzero
timestamp on `fi`), exactly one `Swipe` event is emitted. -/
theorem c7_swipe_cooldown (pre mid post : List Frame) (fi fj : Frame)
    (s' : Eng) (ev : List Event)
    (hrun : Run initEngine (pre ++ fi :: (mid ++ fj :: post)) s' ev)
    (hpre : ∀ f ∈ pre, ¬ qualifying f) (hmid : ∀ f ∈ mid, ¬ qualifying f)
    (hpost : ∀ f ∈ post, ¬ qualifying f)
    (hi : qualifying fi) (hj : qualifying fj)
    (hti : fi.t ≠ 0) (hgap : fj.t - fi.t < 1200) :
    ev.countP isSwipeEv = 1 := by
  obtain ⟨s1, e1, eRest, r1, r2, rfl⟩ := run_append pre _ initEngine s' ev hrun
  have hp1 := run_nonqual pre initEngine s1 e1 r1 hpre
  have hdead1 : s1.swipeCooldownTimestamp = none := by rw [hp1.2.2]; rfl
  have hcd1 : s1.switchCooldown = none := by rw [hp1.2.1]; rfl
  cases r2 with
  | cons _ _ _ s2 _ evI evRest2 hstepI htailI =>
      have hfire := step_qual_fire s1 fi s2 evI hstepI hi hdead1
        (Or.inl (by simp [hcd1]))
      have hdead2 : s2.swipeCooldownTimestamp = none := by
        rw [step_dead s1 fi s2 evI hstepI, hdead1]
      obtain ⟨s3, eM, eRest3, r3, r4, rfl⟩ := run_append mid _ s2 s' evRest2 htailI
      have hm := run_nonqual mid s2 s3 eM r3 hmid
      have hdead3 : s3.swipeCooldownTimestamp = none := by rw [hm.2.2, hdead2]
      have hc3 : s3.switchCooldown = some fi.t := by rw [hm.2.1, hfire.2]
      cases r4 with
      | cons _ _ _ s4 _ evJ evPost hstepJ htailJ =>
          have hcool := step_qual_cooled s3 fj s4 evJ hstepJ hj hdead3 fi.t hc3 hti
            (by exact not_lt.mpr (le_of_lt hgap))
          have hdead4 : s4.swipeCooldownTimestamp = none := by
            rw [step_dead s3 fj s4 evJ hstepJ, hdead3]
          have hp := run_nonqual post s4 s' evPost htailJ hpost
          simp [List.countP_append, hp1.1, hfire.1, hm.1, hcool.1, hp.1]

theorem singleHand_palm_idle (s : Eng) (now : ℚ) (h : Hand)
    (hdead : s.swipeCooldownTimestamp = none) (hg : detectGesture h = .palm)
    (hst : s.state = .idle) :
    ∃ x, handleSingleHandGestures s now h = ({ s with palmStartTime := some x }, []) := by
  cases hps : s.palmStartTime with
  | none => exact ⟨now, singleHand_palm_fresh s now h hdead hg (by simp [hps])⟩
  | some t0 =>
      by_cases ht0 : t0 = 0
      · exact ⟨now, singleHand_palm_fresh s now h hdead hg (by simp [hps, ht0, optTruthy])⟩
      · by_cases hgt : 1200 < now - t0
        · exact ⟨t0, singleHand_palm_idleLate s now h t0 hdead hg hps ht0 hgt hst⟩
        · exact ⟨t0, singleHand_palm_arm s now h t0 hdead hg hps ht0 hgt⟩

theorem run_palm_idle (frames : List Frame) : ∀ (s s' : Eng) (ev : List Event),
    Run s frames s' ev → s.state = .idle → s.swipeCooldownTimestamp = none →
    palmFrames frames →
    ev = [] ∧ s'.state = .idle ∧ s'.swipeCooldownTimestamp = none ∧
    s'.lastHandPosition = s.lastHandPosition ∧
    s'.pinchStartDistance = s.pinchStartDistance ∧
    s'.gestureStartTime = s.gestureStartTime ∧
    s'.lastMoveTime = s.lastMoveTime ∧
    s'.switchCooldown = s.switchCooldown := by
  induction frames with
  | nil =>
      intro s s' ev hr hst hdead _
      cases hr
      exact ⟨rfl, hst, hdead, rfl, rfl, rfl, rfl, rfl⟩
  | cons f fs ih =>
      intro s s' ev hr hst hdead hpalm
      obtain ⟨h, hh, hg⟩ := hpalm f (by simp)
      cases hr with
      | cons _ _ _ s1 _ ev1 ev2 hstep htail =>
          have he := processFrame_oneHand_inv s f h s1 ev1 hh hstep
          obtain ⟨x, hx⟩ := singleHand_palm_idle s f.t h hdead hg hst
          rw [hx] at he
          have hs1 : ({ s with palmStartTime := some x } : Eng) = s1 :=
            (prodEqSplit he).1
          have hev1 : ev1 = [] := (prodEqSplit he).2.symm
          obtain ⟨hev2, hstF, hdeadF, hlhp, hpin, hgst, hlmt, hswc⟩ :=
            ih s1 s' ev2 htail (by rw [← hs1]; simpa using hst)
              (by rw [← hs1]; simpa using hdead)
              (fun g hg2 => hpalm g (by simp [hg2]))
          refine ⟨by rw [hev1, hev2]; rfl, hstF, hdeadF, ?_, ?_, ?_, ?_, ?_⟩
          · rw [hlhp, ← hs1]
          · rw [hpin, ← hs1]
          · rw [hgst, ← hs1]
          · rw [hlmt, ← hs1]
          · rw [hswc, ← hs1]

theorem run_palm_armed (frames : List Frame) :
    ∀ (s s' : Eng) (ev : List Event) (t0 : ℚ),
    Run s frames s' ev → s.swipeCooldownTimestamp = none →
    s.palmStartTime = some t0 → t0 ≠ 0 → s.state ≠ .idle → palmFrames frames →
    ((∃ f ∈ frames, 1200 < f.t - t0) →
        ev.countP isResetEv = 1 ∧ s'.state = .idle ∧ s'.lastHandPosition = none ∧
        s'.pinchStartDistance = none ∧ s'.gestureStartTime = none ∧
        s'.lastMoveTime = s.lastMoveTime ∧ s'.switchCooldown = s.switchCooldown) ∧
    ((∀ f ∈ frames, ¬ 1200 < f.t - t0) →
        ev = [] ∧ s' = { s with palmStartTime := some t0 }) := by
  induction frames with
  | nil =>
      intro s s' ev t0 hr hdead hps ht0 hst _
      cases hr
      constructor
      · rintro ⟨f, hf, -⟩
        simp at hf
      · intro _
        exact ⟨rfl, Eng.ext rfl rfl rfl rfl hps rfl rfl rfl⟩
  | cons f fs ih =>
      intro s s' ev t0 hr hdead hps ht0 hst hpalm
      obtain ⟨h, hh, hg⟩ := hpalm f (by simp)
      cases hr with
      | cons _ _ _ s1 _ ev1 ev2 hstep htail =>
          have he := processFrame_oneHand_inv s f h s1 ev1 hh hstep
          by_cases hfire : 1200 < f.t - t0
          · rw [singleHand_palm_fire s f.t h t0 hdead hg hps ht0 hfire hst] at he
            have hs1 := (prodEqSplit he).1
            have hev1 := (prodEqSplit he).2
            obtain ⟨hev2, hstF, hdeadF, hlhp, hpin, hgst, hlmt, hswc⟩ :=
              run_palm_idle fs s1 s' ev2 htail (by rw [← hs1])
                (by rw [← hs1]; simpa using hdead)
                (fun g hg2 => hpalm g (by simp [hg2]))
            constructor
            · intro _
              refine ⟨?_, hstF, ?_, ?_, ?_, ?_, ?_⟩
              · rw [← hev1, hev2]
                by_cases hlk : s.state = .locked <;> simp [hlk, isResetEv]
              · rw [hlhp, ← hs1]
              · rw [hpin, ← hs1]
              · rw [hgst, ← hs1]
              · rw [hlmt, ← hs1]
              · rw [hswc, ← hs1]
            · intro hall
              exact absurd hfire (hall f (by simp))
          · rw [singleHand_palm_arm s f.t h t0 hdead hg hps ht0 hfire] at he
            have hs1 := (prodEqSplit he).1
            have hev1 := (prodEqSplit he).2
            obtain ⟨part1, part2⟩ := ih s1 s' ev2 t0 htail
              (by rw [← hs1]; simpa using hdead) (by rw [← hs1])
              ht0 (by rw [← hs1]; simpa using hst)
              (fun g hg2 => hpalm g (by simp [hg2]))
            constructor
            · rintro ⟨f', hf', hgt'⟩
              rcases List.mem_cons.mp hf' with rfl | hfmem
              · exact absurd hgt' hfire
              · obtain ⟨hc, hstF, hlhp, hpin, hgst, hlmt, hswc⟩ :=
                  part1 ⟨f', hfmem, hgt'⟩
                refine ⟨?_, hstF, hlhp, hpin, hgst, ?_, ?_⟩
                · rw [← hev1]
                  simpa using hc
                · rw [hlmt, ← hs1]
                · rw [hswc, ← hs1]
            · intro hall
              obtain ⟨hev2, hsF⟩ := part2 (fun g hg2 => hall g (by simp [hg2]))
              refine ⟨?_, ?_⟩
              · rw [← hev1, hev2]
                rfl
              · rw [hsF, ← hs1]

/-- C6 amended: starting from a state that is **not Idle** with no palm
timer armed, a run of continuous Palm single-hand frames emits exactly
one `Reset` iff some frame arrives more than 1200 ms after the first
(else no event at all); when it fires, the state returns to `idle` and
the anchor, pinch baseline and gesture-start timer are cleared, while
`lastMoveTime` and `switchCooldown` are *not* cleared. -/
theorem c6_amended (s0 : Eng) (f0 : Frame) (frames : List Frame) (s' : Eng)
    (ev : List Event) (hrun : Run s0 (f0 :: frames) s' ev)
    (hdead : s0.swipeCooldownTimestamp = none) (hps : s0.palmStartTime = none)
    (hst : s0.state ≠ .idle) (hpalm : palmFrames (f0 :: frames)) (ht0 : f0.t ≠ 0) :
    ((∃ f ∈ frames, 1200 < f.t - f0.t) →
        ev.countP isResetEv = 1 ∧ s'.state = .idle ∧ s'.lastHandPosition = none ∧
        s'.pinchStartDistance = none ∧ s'.gestureStartTime = none ∧
        s'.lastMoveTime = s0.lastMoveTime ∧ s'.switchCooldown = s0.switchCooldown) ∧
    ((∀ f ∈ frames, ¬ 1200 < f.t - f0.t) →
        ev = [] ∧ s' = { s0 with palmStartTime := some f0.t }) := by
  obtain ⟨h, hh, hg⟩ := hpalm f0 (by simp)
  cases hrun with
  | cons _ _ _ s1 _ ev1 ev2 hstep htail =>
      have he := processFrame_oneHand_inv s0 f0 h s1 ev1 hh hstep
      rw [singleHand_palm_fresh s0 f0.t h hdead hg (by simp [hps])] at he
      have hs1 := (prodEqSplit he).1
      have hev1 := (prodEqSplit he).2
      obtain ⟨part1, part2⟩ := run_palm_armed frames s1 s' ev2 f0.t htail
        (by rw [← hs1]; simpa using hdead) (by rw [← hs1]) ht0
        (by rw [← hs1]; simpa using hst)
        (fun g hg2 => hpalm g (by simp [hg2]))
      constructor
      · intro hex
        obtain ⟨hc, hstF, hlhp, hpin, hgst, hlmt, hswc⟩ := part1 hex
        refine ⟨?_, hstF, hlhp, hpin, hgst, ?_, ?_⟩
        · rw [← hev1]
          simpa using hc
        · rw [hlmt, ← hs1]
        · rw [hswc, ← hs1]
      · intro hall
        obtain ⟨hev2, hsF⟩ := part2 hall
        refine ⟨by rw [← hev1, hev2]; rfl, ?_⟩
        rw [hsF, ← hs1]

theorem run_not_locked (frames : List Frame) : ∀ (s s' : Eng) (ev : List Event),
    Run s frames s' ev → s.state ≠ .locked →
    s'.state ≠ .locked ∧ ∀ e ∈ ev, e ≠ .lock ∧ e ≠ .unlock := by
  induction frames with
  | nil =>
      intro s s' ev hr hnl
      cases hr
      exact ⟨hnl, by simp⟩
  | cons f fs ih =>
      intro s s' ev hr hnl
      cases hr with
      | cons _ _ _ s1 _ ev1 ev2 hstep htail =>
          have h1 := step_not_locked s f s1 ev1 hstep hnl
          have h2 := ih s1 s' ev2 htail h1.1
          refine ⟨h2.1, ?_⟩
          intro e hmem
          rcases List.mem_append.mp hmem with hmem | hmem
          · exact h1.2 e hmem
          · exact h2.2 e hmem

/-- C10: from the initial state `idle`, no input sequence can reach the
state `locked`, so the unlock branch of `resetState` is unreachable and
the engine never emits a `lock` or `unlock` event. -/
theorem c10_no_locked (frames : List Frame) (s' : Eng) (ev : List Event)
    (hrun : Run initEngine frames s' ev) :
    s'.state ≠ .locked ∧ ∀ e ∈ ev, e ≠ Event.lock ∧ e ≠ Event.unlock :=
  run_not_locked frames initEngine s' ev hrun (by simp [initEngine])

/-- C10 witness: the empty run from the fresh engine. -/
theorem c10_no_locked_witness :
    initEngine.state ≠ St.locked ∧
    ∀ e ∈ ([] : List Event), e ≠ Event.lock ∧ e ≠ Event.unlock :=
  c10_no_locked [] initEngine [] (Run.nil initEngine)

/-- C7 witness: two qualifying point frames 100 ms apart from the fresh
engine produce exactly one swipe. -/
theorem c7_swipe_cooldown_witness :
    ∃ (s' : Eng) (ev : List Event),
      Run initEngine [oneFr pointHand 1000, oneFr pointHand 1100] s' ev ∧
      ev.countP isSwipeEv = 1 := by
  have h := runD_sound [(oneFr pointHand 1000, 0), (oneFr pointHand 1100, 0)]
    initEngine (by decide)
  refine ⟨_, _, h, ?_⟩
  exact c7_swipe_cooldown [] [] [] (oneFr pointHand 1000) (oneFr pointHand 1100)
    _ _ h (by simp) (by simp) (by simp)
    ⟨pointHand, by decide, by decide, by decide⟩
    ⟨pointHand, by decide, by decide, by decide⟩
    (by decide) (by decide)

/-- C6 witness: from a `tracking` state, palm frames at 1000 and 2201 ms
(a 1201 ms hold) emit exactly one reset and end idle. -/
theorem c6_amended_witness :
    ∃ (s' : Eng) (ev : List Event),
      Run { initEngine with state := .tracking }
        [oneFr palmHand 1000, oneFr palmHand 2201] s' ev ∧
      ev.countP isResetEv = 1 ∧ s'.state = St.idle := by
  have h := runD_sound [(oneFr palmHand 1000, 0), (oneFr palmHand 2201, 0)]
    { initEngine with state := .tracking } (by decide)
  refine ⟨_, _, h, ?_⟩
  have hpf : palmFrames [oneFr palmHand 1000, oneFr palmHand 2201] := by
    intro f hf
    rcases List.mem_cons.mp hf with rfl | hf
    · exact ⟨palmHand, rfl, by decide⟩
    · rcases List.mem_cons.mp hf with rfl | hf
      · exact ⟨palmHand, rfl, by decide⟩
      · simp at hf
  have hc := c6_amended { initEngine with state := .tracking }
    (oneFr palmHand 1000) [oneFr palmHand 2201] _ _ h rfl rfl (by decide) hpf
    (by decide)
  have part := hc.1 ⟨oneFr palmHand 2201, by simp, by decide⟩
  exact ⟨part.1, part.2.1⟩

/-- C4 amended: a single-hand-processed frame whose classified pose is
not Palm clears the palm-hold timer; but two-hand frames
(`handleTwoHandGestures`) and zero-hand frames (`resetState`) leave
`palmStartTime` untouched, so only single-hand non-Palm frames restart
the hold. -/
theorem c4_amended :
    (∀ (s : Eng) (now : ℚ) (h : Hand), s.swipeCooldownTimestamp = none →
      detectGesture h ≠ .palm →
      (handleSingleHandGestures s now h).1.palmStartTime = none) ∧
    (∀ (s : Eng) (d : ℚ),
      (handleTwoHandGestures s d).1.palmStartTime = s.palmStartTime) ∧
    (∀ s : Eng, (resetState s).1.palmStartTime = s.palmStartTime) :=
  ⟨singleHand_nonpalm_clears, fun s d => (twoHand_fields s d).1,
   fun s => (resetState_fields s).2.1⟩

/-- C4 amended witness: concrete instances of all three parts. -/
theorem c4_amended_witness :
    (handleSingleHandGestures { initEngine with palmStartTime := some 1000 } 1100
      (fistHand 0)).1.palmStartTime = none ∧
    (handleTwoHandGestures { initEngine with palmStartTime := some 1000 }
      (1/2)).1.palmStartTime = some 1000 ∧
    (resetState { initEngine with palmStartTime := some 1000 }).1.palmStartTime
      = some 1000 := by
  refine ⟨c4_amended.1 _ 1100 (fistHand 0) rfl (by decide), ?_, ?_⟩
  · rw [c4_amended.2.1]
  · rw [c4_amended.2.2]

/-- C9 amended: from a `Rotating` state **whose last-move timestamp is
set** (a per-frame movement above 0.002 occurred earlier), a fist frame
whose index tip moved at most 0.002 arriving more than 300 ms after the
last movement forces the state to `idle` and clears the anchors, the
gesture-start timer and the last-move timestamp. -/
theorem c9_amended (s : Eng) (now tm : ℚ) (h : Hand) (p : LastPos)
    (hdead : s.swipeCooldownTimestamp = none) (hstate : s.state = .rotating)
    (hpos : s.lastHandPosition = some p) (hmv : s.lastMoveTime = some tm)
    (htm : tm ≠ 0) (hgap : 300 < now - tm) (hg : detectGesture h = .fist)
    (hstill : ¬ (1/500)^2 <
      ((h.getD 8 ptZero).x - p.x)^2 + ((h.getD 8 ptZero).y - p.y)^2) :
    (handleSingleHandGestures s now h).1.state = .idle ∧
    (handleSingleHandGestures s now h).1.lastHandPosition = none ∧
    (handleSingleHandGestures s now h).1.gestureStartTime = none ∧
    (handleSingleHandGestures s now h).1.pinchStartDistance = none ∧
    (handleSingleHandGestures s now h).1.lastMoveTime = none := by
  have hguard : ¬ (optTruthy s.swipeCooldownTimestamp = true ∧
      now < s.swipeCooldownTimestamp.getD 0) := by simp [hdead]
  have hpalm : detectGesture h ≠ .palm := by simp [hg]
  have hsw : ¬ (detectGesture h = .point ∧ swipeGeom h) := by simp [hg]
  have hrot : detectGesture h = .fist ∨ detectGesture h = .point := Or.inl hg
  simp only [handleSingleHandGestures, if_neg hguard, if_neg hpalm, if_neg hsw,
    if_pos hrot]
  unfold rotationBranch
  simp only [hpos, if_neg hstill]
  have hmv2 : optTruthy (some tm) = true ∧ 300 < now - (some tm).getD 0 := by
    simpa [optTruthy, htm] using hgap
  split_ifs with he1 <;> simp_all [resetState, hmv]

/-- C9 amended witness: still fist frame 400 ms after the last
movement. -/
theorem c9_amended_witness :
    (handleSingleHandGestures
      { initEngine with
          state := .rotating, lastHandPosition := some ⟨0, 1, 0, 1⟩,
          lastMoveTime := some 1000, gestureStartTime := some 1000 }
      1400 (fistHand 0)).1.state = St.idle ∧
    (handleSingleHandGestures
      { initEngine with
          state := .rotating, lastHandPosition := some ⟨0, 1, 0, 1⟩,
          lastMoveTime := some 1000, gestureStartTime := some 1000 }
      1400 (fistHand 0)).1.lastHandPosition = none ∧
    (handleSingleHandGestures
      { initEngine with
          state := .rotating, lastHandPosition := some ⟨0, 1, 0, 1⟩,
          lastMoveTime := some 1000, gestureStartTime := some 1000 }
      1400 (fistHand 0)).1.gestureStartTime = none ∧
    (handleSingleHandGestures
      { initEngine with
          state := .rotating, lastHandPosition := some ⟨0, 1, 0, 1⟩,
          lastMoveTime := some 1000, gestureStartTime := some 1000 }
      1400 (fistHand 0)).1.pinchStartDistance = none ∧
    (handleSingleHandGestures
      { initEngine with
          state := .rotating, lastHandPosition := some ⟨0, 1, 0, 1⟩,
          lastMoveTime := some 1000, gestureStartTime := some 1000 }
      1400 (fistHand 0)).1.lastMoveTime = none :=
  c9_amended _ 1400 1000 (fistHand 0) ⟨0, 1, 0, 1⟩ rfl rfl rfl rfl
    (by decide) (by decide) (by decide) (by decide)

theorem singleHand_ghost_fwd (s : Eng) (fr : Frame) (s' : Eng) (ev : List Event)
    (h2 : 2 ≤ fr.hands.length) (hnear : twoDistSq fr < (12/100)^2)
    (pf : ProcessFrame s fr s' ev) :
    handleSingleHandGestures s fr.t (fr.hands.getD 0 []) = (s', ev) := by
  cases pf with
  | noHands _ _ h0 he => rw [h0] at h2; simp at h2
  | ghost _ _ _ _ he => exact he
  | twoHands _ _ _ _ hg2 _ _ _ _ => exact absurd hnear hg2
  | fallback _ _ _ hg2 _ _ => exact absurd hnear hg2
  | oneHand h1 _ _ hh1 he => rw [hh1] at h2; simp at h2

/-- C8: a frame with two or more detected hands whose first two
centroids are less than 0.12 apart (stated via the equivalent squared
comparison `twoDistSq fr < 0.12^2`) is processed exactly as a single
hand using the first detection, and can emit no `Zoom` event. -/
theorem c8_ghost (s : Eng) (fr : Frame) (s' : Eng) (ev : List Event)
    (h2 : 2 ≤ fr.hands.length) (hnear : twoDistSq fr < (12/100)^2) :
    (ProcessFrame s fr s' ev ↔
      handleSingleHandGestures s fr.t (fr.hands.getD 0 []) = (s', ev)) ∧
    (ProcessFrame s fr s' ev → ∀ k : ℚ, Event.zoom k ∉ ev) := by
  refine ⟨⟨singleHand_ghost_fwd s fr s' ev h2 hnear,
    fun he => ProcessFrame.ghost s fr s' ev h2 hnear he⟩, fun pf k => ?_⟩
  have he := singleHand_ghost_fwd s fr s' ev h2 hnear pf
  rw [← (prodEqSplit he).2]
  exact singleHand_no_zoom s fr.t (fr.hands.getD 0 []) k

/-- C8 witness: two detections with centroids 0.05 apart at `t = 1000`
are routed to the single-hand path (here: palm arming) with no zoom. -/
theorem c8_ghost_witness :
    ProcessFrame initEngine (ghostFr 1000)
      { initEngine with palmStartTime := some 1000 } [] ∧
    (∀ k : ℚ, Event.zoom k ∉ ([] : List Event)) := by
  have hc := c8_ghost initEngine (ghostFr 1000)
    { initEngine with palmStartTime := some 1000 } [] (by decide) (by decide)
  exact ⟨hc.1.mpr (by decide), fun k => hc.2 (hc.1.mpr (by decide)) k⟩

/-- C5 counterexample: slot 0 sees a landmark at `x = 0`, is vacant one
frame, then sees `x = 1`; the first smoothed output after re-appearance
is `x = 1/2` — the average with the retained pre-vacancy frame — not the
raw landmark set alone. -/
theorem c5_counterexample :
    (trackerRun emptyHist [[[⟨0, 0, 0⟩]], [], [[⟨1, 0, 0⟩]]]).2.getD 2 []
      = [[(⟨1/2, 0, 0⟩ : Pt)]] ∧
    (trackerRun emptyHist [[[⟨0, 0, 0⟩]], [], [[⟨1, 0, 0⟩]]]).2.getD 2 []
      ≠ [[(⟨1, 0, 0⟩ : Pt)]] := by decide

/-- C5 amended: a vacant frame leaves every slot buffer untouched
(`handleResults` with no hands is the identity on the history), so on
re-appearance the first smoothed output is the mean of the retained
pre-vacancy frames and the new frame (here `(0 + 1)/2`). -/
theorem c5_amended :
    (∀ history : ℕ → List (List Pt), handleResults history [] = (history, [])) ∧
    (trackerRun emptyHist [[[⟨0, 0, 0⟩]], [], [[⟨1, 0, 0⟩]]]).2
      = [[[⟨0, 0, 0⟩]], [], [[⟨1/2, 0, 0⟩]]] :=
  ⟨fun _ => rfl, by decide⟩
